import Mathlib

/-!
Shallow embedding of the llmio routing core (Go), covering:
the outbound header construction (service.BuildHeaders), the OpenAI adapter
request builder (providers.OpenAI.BuildReq), the proxy-aware HTTP client cache
(providers.GetClientWithProxy), the streaming response-header timeout
computation, the BalanceChat retry loop (service.BalanceChat), and the pure
tail of the metadata assembler (service.ProvidersWithMetaBymodelsName).
Machine integers are modelled as Nat (all the quantities involved are
non-negative in the source); Go maps are modelled as association lists whose
lookup semantics matches map indexing; external effects (URL parsing, SOCKS5
dialer construction, sjson body rewriting, the network) are modelled as
explicit oracle parameters.
-/

namespace Llmio

/-! ## Go net/textproto canonical MIME header keys

Model of textproto.CanonicalMIMEHeaderKey, which net/http Header.Set,
Header.Del and Header.Get apply to their key argument before touching the
underlying map. A key containing a byte that is not a valid header-field
byte is returned unchanged; otherwise the first letter and every letter
following a hyphen is upper-cased and every other letter is lower-cased. -/

def validHeaderFieldChar (c : Char) : Bool :=
  let n := c.toNat
  (decide (97 ≤ n ∧ n ≤ 122)) || (decide (65 ≤ n ∧ n ≤ 90)) ||
  (decide (48 ≤ n ∧ n ≤ 57)) ||
  n == 33 || n == 35 || n == 36 || n == 37 || n == 38 || n == 39 ||
  n == 42 || n == 43 || n == 45 || n == 46 || n == 94 || n == 95 ||
  n == 96 || n == 124 || n == 126

def upperChar (c : Char) : Char :=
  if 97 ≤ c.toNat ∧ c.toNat ≤ 122 then Char.ofNat (c.toNat - 32) else c

def lowerChar (c : Char) : Char :=
  if 65 ≤ c.toNat ∧ c.toNat ≤ 90 then Char.ofNat (c.toNat + 32) else c

def canonChars : Bool → List Char → List Char
  | _, [] => []
  | upper, c :: rest =>
    (if upper then upperChar c else lowerChar c) :: canonChars (c == '-') rest

def canonicalHeaderKey (s : String) : String :=
  if s.toList.all validHeaderFieldChar then (canonChars true s.toList).asString
  else s

/-! ## Go net/http Header

http.Header is map[string][]string. We model it as an association list with
the lookup semantics of Go map indexing (at most one entry per key is ever
produced by our operations; lookup returns the first matching entry). -/

abbrev HeaderMap := List (String × List String)

def headerLookup (h : HeaderMap) (k : String) : Option (List String) :=
  (h.find? (fun e => e.1 == k)).map (fun e => e.2)

def headerEraseKey (h : HeaderMap) (k : String) : HeaderMap :=
  h.filter (fun e => !(e.1 == k))

/-- Header.Set: assigns the canonical key to the single value [v]. -/
def headerSet (h : HeaderMap) (k v : String) : HeaderMap :=
  (canonicalHeaderKey k, [v]) :: headerEraseKey h (canonicalHeaderKey k)

/-- Header.Del: deletes the canonical key from the map. -/
def headerDel (h : HeaderMap) (k : String) : HeaderMap :=
  headerEraseKey h (canonicalHeaderKey k)

/-- Header.Get: first value stored under the canonical key, or empty string. -/
def headerGet (h : HeaderMap) (k : String) : String :=
  match headerLookup h (canonicalHeaderKey k) with
  | some (v :: _) => v
  | _ => ""

/-! ## service.BuildHeaders

Direct translation of BuildHeaders from the routing service: start from a
clone of the inbound header when the pass-through flag is set, otherwise an
empty header; when streaming, set X-Accel-Buffering to no; delete
Authorization, X-Api-Key and X-Goog-Api-Key; finally apply each custom
header with Set. Go map iteration order over the custom headers is
unspecified, so the custom headers are supplied as a list covering one such
order. -/

def BuildHeaders (source : HeaderMap) (withHeader : Bool)
    (customHeaders : List (String × String)) (stream : Bool) : HeaderMap :=
  let header : HeaderMap := if withHeader then source else []
  let header := if stream then headerSet header "X-Accel-Buffering" "no" else header
  let header := headerDel header "Authorization"
  let header := headerDel header "X-Api-Key"
  let header := headerDel header "X-Goog-Api-Key"
  customHeaders.foldl (fun h kv => headerSet h kv.1 kv.2) header

/-! ## providers.OpenAI.BuildReq

The adapter rewrites the model field of the raw body with sjson.SetBytes
(external library, modelled by its oracle result sjsonResult: the rewritten
bytes on success, none on failure), creates a POST request with
http.NewRequestWithContext (whose possible failure is modelled by the
newRequestOk oracle; on success the request starts with an empty header),
installs the supplied header map if it is non-nil, and then sets
Content-Type and Authorization with Header.Set. -/

structure OpenAI where
  baseURL : String
  apiKey : String
  proxy : String
deriving DecidableEq

structure HttpRequest where
  method : String
  url : String
  header : HeaderMap
deriving DecidableEq

def OpenAI.buildReq (o : OpenAI) (header : Option HeaderMap)
    (sjsonResult : Option (List Nat)) (newRequestOk : Bool) :
    Option (HttpRequest × List Nat) :=
  match sjsonResult with
  | none => none
  | some body =>
    if newRequestOk then
      let req : HttpRequest := ⟨"POST", o.baseURL ++ "/chat/completions", []⟩
      let req := match header with
        | some h => { req with header := h }
        | none => req
      let req := { req with header := headerSet req.header "Content-Type" "application/json" }
      let req := { req with header := headerSet req.header "Authorization" ("Bearer " ++ o.apiKey) }
      some (req, body)
    else none

/-! ## providers.GetClientWithProxy: transport construction

The parse of the proxy URL (net/url.Parse) and the SOCKS5 dialer
construction (golang.org/x/net/proxy.SOCKS5) are external; they are
modelled by the oracle arguments parsed (the parse result, none on error)
and socks5Err (whether proxy.SOCKS5 returned an error). A parsed URL
carries its scheme, host, and optional userinfo; the userinfo password is
some p exactly when the URL has a password component (Userinfo.Password
returns hasPassword = true), even when p is the empty string. -/

structure Userinfo where
  username : String
  password : Option String
deriving DecidableEq

structure ParsedURL where
  scheme : String
  host : String
  user : Option Userinfo
deriving DecidableEq

structure Socks5Auth where
  user : String
  password : String
deriving DecidableEq

/-- Model of the auth construction inside the socks5 branch of
GetClientWithProxy: credentials are built when the userinfo is present,
the username is non-empty, and a password component is present. -/
def socks5AuthFor (user : Option Userinfo) : Option Socks5Auth :=
  match user with
  | none => none
  | some u =>
    if u.username ≠ "" ∧ u.password.isSome then
      some ⟨u.username, u.password.getD ""⟩
    else none

inductive ProxyFunc where
  | nilProxy
  | fromEnvironment
  | fromURL (u : ParsedURL)
deriving DecidableEq

inductive DialerKind where
  | defaultDialer
  | contextAwareSocks5 (host : String) (auth : Option Socks5Auth)
deriving DecidableEq

/-- The fields of http.Transport that GetClientWithProxy configures per
branch. The remaining transport fields are constants in the source. -/
structure TransportConfig where
  proxy : ProxyFunc
  dial : DialerKind
  responseHeaderTimeout : Nat
deriving DecidableEq

/-- Direct translation of the proxy-configuration branches of
GetClientWithProxy. The http and https cases use the parsed URL as proxy
with the default dialer; socks5 success installs the context-aware SOCKS5
dialer and leaves transport.Proxy nil; socks5 failure, an unknown scheme,
a parse error, and the empty proxy URL all use http.ProxyFromEnvironment
with the default dialer. -/
def buildTransport (responseHeaderTimeout : Nat) (proxyURL : String)
    (parsed : Option ParsedURL) (socks5Err : Bool) : TransportConfig :=
  if proxyURL ≠ "" then
    match parsed with
    | some u =>
      if u.scheme = "http" ∨ u.scheme = "https" then
        ⟨.fromURL u, .defaultDialer, responseHeaderTimeout⟩
      else if u.scheme = "socks5" then
        if socks5Err then ⟨.fromEnvironment, .defaultDialer, responseHeaderTimeout⟩
        else ⟨.nilProxy, .contextAwareSocks5 u.host (socks5AuthFor u.user), responseHeaderTimeout⟩
      else ⟨.fromEnvironment, .defaultDialer, responseHeaderTimeout⟩
    | none => ⟨.fromEnvironment, .defaultDialer, responseHeaderTimeout⟩
  else ⟨.fromEnvironment, .defaultDialer, responseHeaderTimeout⟩

/-! ## providers client cache

The cache maps (responseHeaderTimeout, proxyURL) to a client instance.
Client identity is modelled by a fresh Nat drawn from a counter, standing
for the pointer identity of the *http.Client the source allocates. The
double-checked locking collapses, in this sequential model, to a re-lookup
before insertion, exactly as in the source after acquiring the write
lock. -/

structure ClientCacheKey where
  timeout : Nat
  proxyURL : String
deriving DecidableEq

structure CacheState where
  clients : List (ClientCacheKey × Nat)
  nextId : Nat
deriving DecidableEq

def cacheLookup (cs : List (ClientCacheKey × Nat)) (k : ClientCacheKey) : Option Nat :=
  (cs.find? (fun e => e.1 == k)).map (fun e => e.2)

/-- Model of GetClientWithProxy at the cache level: read-locked lookup,
then, on a miss, re-lookup under the write lock, then allocation and
insertion of a fresh client. -/
def getClientWithProxy (st : CacheState) (timeout : Nat) (proxyURL : String) :
    Nat × CacheState :=
  let key : ClientCacheKey := ⟨timeout, proxyURL⟩
  match cacheLookup st.clients key with
  | some client => (client, st)
  | none =>
    match cacheLookup st.clients key with
    | some client => (client, st)
    | none => (st.nextId, ⟨(key, st.nextId) :: st.clients, st.nextId + 1⟩)

/-! ## BalanceChat: effective response-header timeout

The source computes time.Second multiplied by Duration(TimeOut) and, when
the request is streaming, divides that Duration by 3. time.Duration is a
count of nanoseconds, so the division truncates nanoseconds, not whole
seconds. The result is modelled in nanoseconds. -/

def effectiveResponseHeaderTimeoutNs (timeOut : Nat) (stream : Bool) : Nat :=
  let d := 1000000000 * timeOut
  if stream then d / 3 else d

/-! ## service.BalanceChat: the retry loop

The loop body interacts with the environment at fixed points: the select
over context cancellation, the global timer and the default branch; the
balancer Pop; the candidate lookup; adapter construction; request
building; dispatch; and the upstream status code. Each iteration of the
loop observes one IterEvent from an oracle indexed by the loop variable
retry; the loop itself is the source control flow over those observations.
Balancer calls, retry-log channel sends and outbound dispatches are
recorded in a trace. -/

inductive PopKont where
  | stale
  | adapterErr
  | buildReqErr
  | transportErr
  | status (code : Nat)
deriving DecidableEq

inductive IterEvent where
  | ctxDone
  | timerFired
  | popErr
  | popOk (id : Nat) (k : PopKont)
deriving DecidableEq

inductive BAction where
  | pop (id : Nat)
  | del (id : Nat)
  | reduce (id : Nat)
  | success (id : Nat)
  | retryLogSend
  | dispatch
deriving DecidableEq

inductive Outcome where
  | ctxErr
  | timeoutErr (msg : String)
  | popFail
  | adapterFail
  | success (id : Nat) (retry : Nat)
  | exhausted (msg : String)
deriving DecidableEq

structure IterResult where
  actions : List BAction
  outcome : Option Outcome
deriving DecidableEq

/-- One iteration of the BalanceChat loop body. A none outcome is the
continue statement in the source; a some outcome is a return. The status
case mirrors the source: a status different from http.StatusOK (200) reads
the body, enqueues a retry log, then Reduces on 429 and Deletes otherwise,
and continues; exactly status 200 calls Success and returns the still-open
response together with the pre-filled log record (its Retry field is the
loop variable). -/
def runIteration (retry : Nat) (ev : IterEvent) : IterResult :=
  match ev with
  | .ctxDone => ⟨[], some .ctxErr⟩
  | .timerFired => ⟨[], some (.timeoutErr "retry time out")⟩
  | .popErr => ⟨[], some .popFail⟩
  | .popOk id k =>
    match k with
    | .stale => ⟨[.pop id, .del id], none⟩
    | .adapterErr => ⟨[.pop id], some .adapterFail⟩
    | .buildReqErr => ⟨[.pop id, .retryLogSend, .del id], none⟩
    | .transportErr => ⟨[.pop id, .dispatch, .retryLogSend, .del id], none⟩
    | .status c =>
      if c ≠ 200 then
        if c = 429 then ⟨[.pop id, .dispatch, .retryLogSend, .reduce id], none⟩
        else ⟨[.pop id, .dispatch, .retryLogSend, .del id], none⟩
      else ⟨[.pop id, .dispatch, .success id], some (.success id retry)⟩

structure LoopResult where
  outcome : Outcome
  trace : List BAction
  iterations : Nat
deriving DecidableEq

/-- The loop for retry := range MaxRetry, with fuel = MaxRetry - retry.
When the fuel runs out the loop exits normally and the source returns the
error maximum retry attempts reached. -/
def loopAux (oracle : Nat → IterEvent) : Nat → Nat → LoopResult
  | 0, _ => ⟨.exhausted "maximum retry attempts reached", [], 0⟩
  | fuel + 1, retry =>
    let r := runIteration retry (oracle retry)
    match r.outcome with
    | some o => ⟨o, r.actions, 1⟩
    | none =>
      let rest := loopAux oracle fuel (retry + 1)
      ⟨rest.outcome, r.actions ++ rest.trace, rest.iterations + 1⟩

def balanceChatLoop (oracle : Nat → IterEvent) (maxRetry : Nat) : LoopResult :=
  loopAux oracle maxRetry 0

def countDispatch : List BAction → Nat
  | [] => 0
  | .dispatch :: rest => countDispatch rest + 1
  | _ :: rest => countDispatch rest

def countRetryLog : List BAction → Nat
  | [] => 0
  | .retryLogSend :: rest => countRetryLog rest + 1
  | _ :: rest => countRetryLog rest

/-! ## service.ProvidersWithMetaBymodelsName: pure assembly tail

The database interaction of the assembler yields the list of enabled
bindings for the model (modelWithProviders) and the provider rows whose id
occurs among the bindings and whose type equals the request style. The map
construction from those lists is pure and is translated here: lo.KeyBy
iterates the list assigning into a map, and the weight map is filled by
the range loop that skips bindings whose provider id is absent from the
provider map. Only the fields the assembler reads are modelled. -/

structure ModelWithProvider where
  id : Nat
  providerID : Nat
  weight : Int
deriving DecidableEq

structure Provider where
  id : Nat
  type : String
deriving DecidableEq

def assocInsert {α : Type} (m : List (Nat × α)) (k : Nat) (v : α) : List (Nat × α) :=
  (k, v) :: m.filter (fun e => !(e.1 == k))

def assocLookup {α : Type} (m : List (Nat × α)) (k : Nat) : Option α :=
  (m.find? (fun e => e.1 == k)).map (fun e => e.2)

/-- lo.KeyBy: iterate the list assigning item to map at key of item. -/
def keyBy {α : Type} (l : List α) (f : α → Nat) : List (Nat × α) :=
  l.foldl (fun m x => assocInsert m (f x) x) []

/-- The SQL restriction on the provider query: id IN the bindings provider
ids, and type = style. -/
def styleProviders (allProviders : List Provider) (style : String)
    (mps : List ModelWithProvider) : List Provider :=
  allProviders.filter (fun p =>
    (mps.map (fun mp => mp.providerID)).contains p.id && p.type == style)

/-- The range loop building weightItems: bindings whose provider id is
absent from providerMap are skipped. -/
def buildWeightItems (mps : List ModelWithProvider)
    (providerMap : List (Nat × Provider)) : List (Nat × Int) :=
  mps.foldl (fun w mp =>
    if (assocLookup providerMap mp.providerID).isSome then
      assocInsert w mp.id mp.weight
    else w) []

structure ProvidersWithMeta where
  modelWithProviderMap : List (Nat × ModelWithProvider)
  weightItems : List (Nat × Int)
  providerMap : List (Nat × Provider)
deriving DecidableEq

def assembleMeta (mps : List ModelWithProvider) (allProviders : List Provider)
    (style : String) : ProvidersWithMeta :=
  let modelWithProviderMap := keyBy mps (fun mp => mp.id)
  let providerMap := keyBy (styleProviders allProviders style mps) (fun p => p.id)
  ⟨modelWithProviderMap, buildWeightItems mps providerMap, providerMap⟩

/-! ## Helper lemmas for the retry loop -/

theorem countDispatch_append (l1 l2 : List BAction) :
    countDispatch (l1 ++ l2) = countDispatch l1 + countDispatch l2 := by
  induction l1 with
  | nil => simp [countDispatch]
  | cons a t ih =>
    cases a
    all_goals simp [countDispatch, ih]
    all_goals omega

theorem countRetryLog_append (l1 l2 : List BAction) :
    countRetryLog (l1 ++ l2) = countRetryLog l1 + countRetryLog l2 := by
  induction l1 with
  | nil => simp [countRetryLog]
  | cons a t ih =>
    cases a
    all_goals simp [countRetryLog, ih]
    all_goals omega

theorem countDispatch_iter_le (retry : Nat) (ev : IterEvent) :
    countDispatch (runIteration retry ev).actions ≤ 1 := by
  cases ev with
  | ctxDone => simp [runIteration, countDispatch]
  | timerFired => simp [runIteration, countDispatch]
  | popErr => simp [runIteration, countDispatch]
  | popOk id k =>
    cases k with
    | stale => simp [runIteration, countDispatch]
    | adapterErr => simp [runIteration, countDispatch]
    | buildReqErr => simp [runIteration, countDispatch]
    | transportErr => simp [runIteration, countDispatch]
    | status c =>
      by_cases h200 : c = 200
      · simp [runIteration, h200, countDispatch]
      · by_cases h429 : c = 429
        · simp [runIteration, h200, h429, countDispatch]
        · simp [runIteration, h200, h429, countDispatch]

theorem countRetryLog_iter_le (retry : Nat) (ev : IterEvent) :
    countRetryLog (runIteration retry ev).actions ≤ 1 := by
  cases ev with
  | ctxDone => simp [runIteration, countRetryLog]
  | timerFired => simp [runIteration, countRetryLog]
  | popErr => simp [runIteration, countRetryLog]
  | popOk id k =>
    cases k with
    | stale => simp [runIteration, countRetryLog]
    | adapterErr => simp [runIteration, countRetryLog]
    | buildReqErr => simp [runIteration, countRetryLog]
    | transportErr => simp [runIteration, countRetryLog]
    | status c =>
      by_cases h200 : c = 200
      · simp [runIteration, h200, countRetryLog]
      · by_cases h429 : c = 429
        · simp [runIteration, h200, h429, countRetryLog]
        · simp [runIteration, h200, h429, countRetryLog]

theorem runIteration_not_exhausted (retry : Nat) (ev : IterEvent) (msg : String) :
    (runIteration retry ev).outcome ≠ some (.exhausted msg) := by
  cases ev with
  | ctxDone => simp [runIteration]
  | timerFired => simp [runIteration]
  | popErr => simp [runIteration]
  | popOk id k =>
    cases k with
    | stale => simp [runIteration]
    | adapterErr => simp [runIteration]
    | buildReqErr => simp [runIteration]
    | transportErr => simp [runIteration]
    | status c =>
      by_cases h200 : c = 200
      · simp [runIteration, h200]
      · by_cases h429 : c = 429
        · simp [runIteration, h200, h429]
        · simp [runIteration, h200, h429]

theorem loopAux_bounds (oracle : Nat → IterEvent) (fuel retry : Nat) :
    (loopAux oracle fuel retry).iterations ≤ fuel ∧
    countDispatch (loopAux oracle fuel retry).trace ≤ (loopAux oracle fuel retry).iterations ∧
    countRetryLog (loopAux oracle fuel retry).trace ≤ (loopAux oracle fuel retry).iterations ∧
    ∀ msg, (loopAux oracle fuel retry).outcome = .exhausted msg →
      msg = "maximum retry attempts reached" := by
  induction fuel generalizing retry with
  | zero =>
    refine ⟨Nat.le_refl 0, ?_, ?_, ?_⟩
    · simp [loopAux, countDispatch]
    · simp [loopAux, countRetryLog]
    · intro msg h
      simp [loopAux] at h
      exact h.symm
  | succ n ih =>
    cases hout : (runIteration retry (oracle retry)).outcome with
    | some o =>
      refine ⟨?_, ?_, ?_, ?_⟩
      · simp [loopAux, hout]
      · simp [loopAux, hout]
        exact countDispatch_iter_le retry (oracle retry)
      · simp [loopAux, hout]
        exact countRetryLog_iter_le retry (oracle retry)
      · intro msg h
        simp [loopAux, hout] at h
        subst h
        exact absurd hout (runIteration_not_exhausted retry (oracle retry) msg)
    | none =>
      obtain ⟨h1, h2, h3, h4⟩ := ih (retry + 1)
      refine ⟨?_, ?_, ?_, ?_⟩
      · simp [loopAux, hout]
        omega
      · simp [loopAux, hout, countDispatch_append]
        have := countDispatch_iter_le retry (oracle retry)
        omega
      · simp [loopAux, hout, countRetryLog_append]
        have := countRetryLog_iter_le retry (oracle retry)
        omega
      · intro msg h
        simp [loopAux, hout] at h
        exact h4 msg h

/-! ## Claims about the retry loop -/

/-- C1 counterexample: the upstream status 201 is a 2xx status, but the
iteration does not call Success and return: it enqueues a retry log,
Deletes the candidate and continues, because the source compares the
status against http.StatusOK (exactly 200), not against the 2xx range. -/
theorem status2xx_not_success_cex :
    (200 ≤ 201 ∧ 201 < 300) ∧
    runIteration 0 (.popOk 7 (.status 201)) =
      ⟨[.pop 7, .dispatch, .retryLogSend, .del 7], none⟩ := by decide

/-- C1 (amended): when an attempt gets status exactly 200, BalanceChat
calls balancer.Success(id) and returns the still-open response with the
pre-filled log record; when the status is 429 it enqueues a retry log and
calls balancer.Reduce(id) then continues; and for any other status
different from 200 (2xx statuses other than 200 included) it does the same
as for 429 except calling balancer.Delete(id) instead of Reduce. -/
theorem status_dispatch_cases (id retry c : Nat) :
    (c = 200 → runIteration retry (.popOk id (.status c)) =
      ⟨[.pop id, .dispatch, .success id], some (.success id retry)⟩) ∧
    (c = 429 → runIteration retry (.popOk id (.status c)) =
      ⟨[.pop id, .dispatch, .retryLogSend, .reduce id], none⟩) ∧
    (c ≠ 200 → c ≠ 429 → runIteration retry (.popOk id (.status c)) =
      ⟨[.pop id, .dispatch, .retryLogSend, .del id], none⟩) := by
  refine ⟨?_, ?_, ?_⟩
  · intro h
    subst h
    simp [runIteration]
  · intro h
    subst h
    simp [runIteration]
  · intro h1 h2
    simp [runIteration, h1, h2]

theorem status_dispatch_cases_witness :
    runIteration 0 (.popOk 1 (.status 200)) =
      ⟨[.pop 1, .dispatch, .success 1], some (.success 1 0)⟩ ∧
    runIteration 0 (.popOk 1 (.status 429)) =
      ⟨[.pop 1, .dispatch, .retryLogSend, .reduce 1], none⟩ ∧
    runIteration 0 (.popOk 1 (.status 500)) =
      ⟨[.pop 1, .dispatch, .retryLogSend, .del 1], none⟩ :=
  ⟨(status_dispatch_cases 1 0 200).1 rfl,
   (status_dispatch_cases 1 0 429).2.1 rfl,
   (status_dispatch_cases 1 0 500).2.2 (by decide) (by decide)⟩

def oracleStaleThen200 : Nat → IterEvent :=
  fun n => if n = 0 then .popOk 5 .stale else .popOk 6 (.status 200)

/-- C2 counterexample: with MaxRetry = 1 the first iteration pops a stale
candidate and the loop then exits with the retries-exhausted error even
though the oracle offers a healthy candidate next, so the stale iteration
did consume the single retry slot; with MaxRetry = 2 the healthy candidate
is reached at retry index 1, confirming the slot was spent. -/
theorem staleConsumesSlot_cex :
    (balanceChatLoop oracleStaleThen200 1).outcome =
      .exhausted "maximum retry attempts reached" ∧
    (balanceChatLoop oracleStaleThen200 2).outcome = .success 6 1 := by decide

/-- C2 (amended): when the id returned by the balancer is absent from
pm.ModelWithProviderMap, the iteration performs exactly balancer.Pop and
balancer.Delete(id) and continues to the next iteration, and doing so
consumes one of the MaxRetry retry slots: the remaining loop budget
decreases by one. -/
theorem stale_delete_continue (oracle : Nat → IterEvent) (fuel retry id : Nat)
    (h : oracle retry = .popOk id .stale) :
    loopAux oracle (fuel + 1) retry =
      ⟨(loopAux oracle fuel (retry + 1)).outcome,
       .pop id :: .del id :: (loopAux oracle fuel (retry + 1)).trace,
       (loopAux oracle fuel (retry + 1)).iterations + 1⟩ := by
  simp [loopAux, h, runIteration]

theorem stale_delete_continue_witness :
    loopAux oracleStaleThen200 1 0 =
      ⟨(loopAux oracleStaleThen200 0 1).outcome,
       .pop 5 :: .del 5 :: (loopAux oracleStaleThen200 0 1).trace,
       (loopAux oracleStaleThen200 0 1).iterations + 1⟩ :=
  stale_delete_continue oracleStaleThen200 0 0 5 (by decide)

/-- C4: for any oracle of environment responses, the BalanceChat loop
executes at most MaxRetry iterations, dispatches at most MaxRetry outbound
requests, enqueues at most MaxRetry retry-log entries, and when it exits
normally with retries exhausted the returned error message is maximum
retry attempts reached. -/
theorem balanceChatLoop_bounds (oracle : Nat → IterEvent) (maxRetry : Nat) :
    (balanceChatLoop oracle maxRetry).iterations ≤ maxRetry ∧
    countDispatch (balanceChatLoop oracle maxRetry).trace ≤ maxRetry ∧
    countRetryLog (balanceChatLoop oracle maxRetry).trace ≤ maxRetry ∧
    ∀ msg, (balanceChatLoop oracle maxRetry).outcome = .exhausted msg →
      msg = "maximum retry attempts reached" := by
  obtain ⟨h1, h2, h3, h4⟩ := loopAux_bounds oracle maxRetry 0
  exact ⟨h1, le_trans h2 h1, le_trans h3 h1, h4⟩

def oracleAll500 : Nat → IterEvent := fun _ => .popOk 1 (.status 500)

theorem balanceChatLoop_bounds_witness :
    (balanceChatLoop oracleAll500 2).iterations ≤ 2 ∧
    countDispatch (balanceChatLoop oracleAll500 2).trace ≤ 2 ∧
    countRetryLog (balanceChatLoop oracleAll500 2).trace ≤ 2 ∧
    "maximum retry attempts reached" = "maximum retry attempts reached" := by
  obtain ⟨h1, h2, h3, h4⟩ := balanceChatLoop_bounds oracleAll500 2
  exact ⟨h1, h2, h3, h4 _ (by decide)⟩

/-! ## Claims about the streaming timeout -/

/-- C3 counterexample: with TimeOut = 1 and a streaming request the
effective response-header timeout is 333333333 nanoseconds, while integer
division of whole seconds would give floor(1 / 3) = 0 seconds, which is 0
nanoseconds. -/
theorem streamTimeout_not_wholeSeconds_cex :
    effectiveResponseHeaderTimeoutNs 1 true = 333333333 ∧
    1 / 3 * 1000000000 = 0 ∧ (333333333 : Nat) ≠ 0 := by decide

/-- C3 (amended): for streaming requests the effective response-header
timeout is the Duration TimeOut seconds divided by 3, which truncates
nanoseconds, so it equals TimeOut times ten to the ninth divided by 3
nanoseconds; it coincides with floor(TimeOut / 3) whole seconds exactly
when TimeOut is divisible by 3. -/
theorem streamTimeout_ns_division (t : Nat) (_ht : 0 < t) :
    effectiveResponseHeaderTimeoutNs t true = 1000000000 * t / 3 ∧
    (effectiveResponseHeaderTimeoutNs t true = t / 3 * 1000000000 ↔ t % 3 = 0) := by
  have h : effectiveResponseHeaderTimeoutNs t true = 1000000000 * t / 3 := rfl
  rw [h]
  exact ⟨rfl, by omega⟩

theorem streamTimeout_ns_division_witness :
    0 < 3 ∧ (effectiveResponseHeaderTimeoutNs 3 true = 1000000000 * 3 / 3 ∧
      (effectiveResponseHeaderTimeoutNs 3 true = 3 / 3 * 1000000000 ↔ 3 % 3 = 0)) :=
  ⟨by decide, streamTimeout_ns_division 3 (by decide)⟩

/-! ## Claims about the client cache -/

theorem cacheLookup_cons_self (cs : List (ClientCacheKey × Nat))
    (k : ClientCacheKey) (v : Nat) : cacheLookup ((k, v) :: cs) k = some v := by
  simp [cacheLookup]

theorem cacheLookup_none_forall {cs : List (ClientCacheKey × Nat)}
    {k : ClientCacheKey} (h : cacheLookup cs k = none) :
    ∀ e ∈ cs, e.1 ≠ k := by
  intro e he
  unfold cacheLookup at h
  rw [Option.map_eq_none'] at h
  rw [List.find?_eq_none] at h
  have := h e he
  simpa using this

/-- C5: GetClientWithProxy is idempotent on its key: assuming the cache
invariant that no two entries share a key, a second call with the same
(timeout, proxyURL) pair returns the very client instance the first call
returned, leaves the cache exactly as the first call left it (so the cache
does not grow on a repeated key), and the no-duplicate-key invariant is
preserved by the first call. -/
theorem getClientWithProxy_idempotent (st : CacheState) (t : Nat) (p : String)
    (hnd : st.clients.Pairwise (fun a b => a.1 ≠ b.1)) :
    (getClientWithProxy (getClientWithProxy st t p).2 t p).1 =
      (getClientWithProxy st t p).1 ∧
    (getClientWithProxy (getClientWithProxy st t p).2 t p).2 =
      (getClientWithProxy st t p).2 ∧
    (getClientWithProxy st t p).2.clients.Pairwise (fun a b => a.1 ≠ b.1) := by
  cases hl : cacheLookup st.clients ⟨t, p⟩ with
  | some c =>
    refine ⟨?_, ?_, ?_⟩
    · simp [getClientWithProxy, hl]
    · simp [getClientWithProxy, hl]
    · simp [getClientWithProxy, hl]
      exact hnd
  | none =>
    have h2 : cacheLookup ((⟨⟨t, p⟩, st.nextId⟩ : ClientCacheKey × Nat) :: st.clients)
        ⟨t, p⟩ = some st.nextId := cacheLookup_cons_self st.clients ⟨t, p⟩ st.nextId
    refine ⟨?_, ?_, ?_⟩
    · simp [getClientWithProxy, hl, h2]
    · simp [getClientWithProxy, hl, h2]
    · simp [getClientWithProxy, hl]
      refine ⟨?_, hnd⟩
      intro a b hab
      exact fun he => (cacheLookup_none_forall hl (a, b) hab) he.symm

theorem getClientWithProxy_idempotent_witness :
    (getClientWithProxy (getClientWithProxy ⟨[], 0⟩ 30 "").2 30 "").1 =
      (getClientWithProxy ⟨[], 0⟩ 30 "").1 ∧
    (getClientWithProxy (getClientWithProxy ⟨[], 0⟩ 30 "").2 30 "").2 =
      (getClientWithProxy ⟨[], 0⟩ 30 "").2 ∧
    (getClientWithProxy ⟨[], 0⟩ 30 "").2.clients.Pairwise (fun a b => a.1 ≠ b.1) :=
  getClientWithProxy_idempotent ⟨[], 0⟩ 30 "" (by simp)

/-! ## Claims about proxy handling -/

/-- C6 counterexample: for the proxy URL socks5 user colon at host, the
userinfo has a non-empty username and a present but empty password; the
source attaches SOCKS5 credentials (with empty password) even though the
password is not non-empty, refuting the claimed iff. -/
theorem socks5_emptyPassword_cex :
    (buildTransport 30 "socks5://user:@proxy:1080"
        (some ⟨"socks5", "proxy:1080", some ⟨"user", some ""⟩⟩) false).dial =
      .contextAwareSocks5 "proxy:1080" (some ⟨"user", ""⟩) ∧
    ¬ (("" : String) ≠ "") := by
  refine ⟨?_, by simp⟩
  rfl

/-- C6 (amended): for a socks5 proxy URL whose SOCKS5 construction
succeeds, the transport uses the context-aware SOCKS5 dialer with the
credentials computed from the userinfo, and credentials are attached if
and only if the userinfo is present, its username is non-empty, and a
password component is present in the URL userinfo, even when that password
is the empty string; otherwise the dialer is built with no credentials. -/
theorem socks5_auth_iff (rht : Nat) (url : String) (u : ParsedURL)
    (hurl : url ≠ "") (hs : u.scheme = "socks5") :
    (buildTransport rht url (some u) false).dial =
      .contextAwareSocks5 u.host (socks5AuthFor u.user) ∧
    ((socks5AuthFor u.user).isSome ↔
      ∃ ui, u.user = some ui ∧ ui.username ≠ "" ∧ ui.password.isSome) := by
  constructor
  · simp [buildTransport, hurl, hs]
  · cases hu : u.user with
    | none => simp [socks5AuthFor]
    | some ui =>
      by_cases h1 : ui.username ≠ "" ∧ ui.password.isSome
      · simp [socks5AuthFor, h1]
      · simp [socks5AuthFor, h1]

theorem socks5_auth_iff_witness :
    ("socks5://u:p@h:1080" : String) ≠ "" ∧
    ((buildTransport 30 "socks5://u:p@h:1080"
        (some ⟨"socks5", "h:1080", some ⟨"u", some "p"⟩⟩) false).dial =
      .contextAwareSocks5 "h:1080" (socks5AuthFor (some ⟨"u", some "p"⟩)) ∧
    ((socks5AuthFor (some ⟨"u", some "p"⟩)).isSome ↔
      ∃ ui, (some ⟨"u", some "p"⟩ : Option Userinfo) = some ui ∧
        ui.username ≠ "" ∧ ui.password.isSome)) :=
  ⟨by decide, socks5_auth_iff 30 "socks5://u:p@h:1080" ⟨"socks5", "h:1080", some ⟨"u", some "p"⟩⟩
    (by decide) rfl⟩

/-- C7: whenever the proxy URL fails to parse, or parses to a scheme other
than http, https and socks5, or has scheme socks5 but the SOCKS5 dialer
construction fails, the resulting transport is the environment-proxy one:
http.ProxyFromEnvironment with the default dialer. -/
theorem proxy_fallback_env (rht : Nat) (url : String) (parsed : Option ParsedURL)
    (socks5Err : Bool)
    (h : parsed = none ∨
      (∃ u, parsed = some u ∧ u.scheme ≠ "http" ∧ u.scheme ≠ "https" ∧
        u.scheme ≠ "socks5") ∨
      (∃ u, parsed = some u ∧ u.scheme = "socks5" ∧ socks5Err = true)) :
    buildTransport rht url parsed socks5Err =
      ⟨.fromEnvironment, .defaultDialer, rht⟩ := by
  by_cases hurl : url = ""
  · simp [buildTransport, hurl]
  · rcases h with h | ⟨u, hu, h1, h2, h3⟩ | ⟨u, hu, h1, h2⟩
    · subst h
      simp [buildTransport, hurl]
    · subst hu
      simp [buildTransport, hurl, h1, h2, h3]
    · subst hu
      subst h2
      simp [buildTransport, hurl, h1]

theorem proxy_fallback_env_witness :
    buildTransport 30 "ftp://proxy:21" (some ⟨"ftp", "proxy:21", none⟩) false =
      ⟨.fromEnvironment, .defaultDialer, 30⟩ :=
  proxy_fallback_env 30 "ftp://proxy:21" (some ⟨"ftp", "proxy:21", none⟩) false
    (Or.inr (Or.inl ⟨⟨"ftp", "proxy:21", none⟩, rfl, by decide, by decide, by decide⟩))

/-! ## Helper lemmas for the header model -/

theorem headerLookup_cons_ne (e : String × List String) (t : HeaderMap)
    (k : String) (h : e.1 ≠ k) : headerLookup (e :: t) k = headerLookup t k := by
  unfold headerLookup
  rw [List.find?_cons_of_neg]
  simp [h]

theorem headerLookup_cons_self (e : String × List String) (t : HeaderMap)
    (k : String) (h : e.1 = k) : headerLookup (e :: t) k = some e.2 := by
  unfold headerLookup
  rw [List.find?_cons_of_pos _ (by simp [h])]
  rfl

theorem headerEraseKey_cons_drop (e : String × List String) (t : HeaderMap)
    (a : String) (h : e.1 = a) : headerEraseKey (e :: t) a = headerEraseKey t a := by
  simp [headerEraseKey, h]

theorem headerEraseKey_cons_keep (e : String × List String) (t : HeaderMap)
    (a : String) (h : e.1 ≠ a) :
    headerEraseKey (e :: t) a = e :: headerEraseKey t a := by
  simp [headerEraseKey, h]

theorem headerLookup_eraseKey_ne (h : HeaderMap) (a k : String) (hne : a ≠ k) :
    headerLookup (headerEraseKey h a) k = headerLookup h k := by
  induction h with
  | nil => rfl
  | cons e t ih =>
    by_cases he : e.1 = a
    · rw [headerEraseKey_cons_drop e t a he, ih,
        headerLookup_cons_ne e t k (by rw [he]; exact hne)]
    · by_cases hk : e.1 = k
      · rw [headerEraseKey_cons_keep e t a he,
          headerLookup_cons_self _ _ _ hk, headerLookup_cons_self _ _ _ hk]
      · rw [headerEraseKey_cons_keep e t a he,
          headerLookup_cons_ne _ _ _ hk, headerLookup_cons_ne e t k hk, ih]

theorem headerLookup_eraseKey_self (h : HeaderMap) (a : String) :
    headerLookup (headerEraseKey h a) a = none := by
  induction h with
  | nil => rfl
  | cons e t ih =>
    by_cases he : e.1 = a
    · rw [headerEraseKey_cons_drop e t a he]
      exact ih
    · rw [headerEraseKey_cons_keep e t a he, headerLookup_cons_ne _ _ _ he]
      exact ih

theorem headerLookup_set_self (h : HeaderMap) (k v : String) :
    headerLookup (headerSet h k v) (canonicalHeaderKey k) = some [v] := by
  unfold headerSet
  rw [headerLookup_cons_self _ _ _ rfl]

theorem headerLookup_set_ne (h : HeaderMap) (k v k2 : String)
    (hne : canonicalHeaderKey k ≠ k2) :
    headerLookup (headerSet h k v) k2 = headerLookup h k2 := by
  unfold headerSet
  rw [headerLookup_cons_ne _ _ _ hne]
  exact headerLookup_eraseKey_ne h (canonicalHeaderKey k) k2 hne

theorem headerLookup_del_ne (h : HeaderMap) (a k : String)
    (hne : canonicalHeaderKey a ≠ k) :
    headerLookup (headerDel h a) k = headerLookup h k :=
  headerLookup_eraseKey_ne h (canonicalHeaderKey a) k hne

theorem headerLookup_del_self (h : HeaderMap) (a : String) :
    headerLookup (headerDel h a) (canonicalHeaderKey a) = none :=
  headerLookup_eraseKey_self h (canonicalHeaderKey a)

theorem headerLookup_foldlSet_frame (custom : List (String × String))
    (h : HeaderMap) (k : String)
    (hc : ∀ e ∈ custom, canonicalHeaderKey e.1 ≠ k) :
    headerLookup (custom.foldl (fun acc kv => headerSet acc kv.1 kv.2) h) k =
      headerLookup h k := by
  induction custom generalizing h with
  | nil => rfl
  | cons e t ih =>
    simp only [List.foldl_cons]
    rw [ih _ (fun x hx => hc x (List.mem_cons_of_mem _ hx))]
    exact headerLookup_set_ne _ _ _ _ (hc e (List.mem_cons_self _ _))

theorem headerLookup_foldlSet_last (pre post : List (String × String))
    (k v : String) (h : HeaderMap)
    (hpost : ∀ e ∈ post, canonicalHeaderKey e.1 ≠ canonicalHeaderKey k) :
    headerLookup ((pre ++ (k, v) :: post).foldl
        (fun acc kv => headerSet acc kv.1 kv.2) h)
      (canonicalHeaderKey k) = some [v] := by
  rw [List.foldl_append, List.foldl_cons]
  rw [headerLookup_foldlSet_frame post _ _ hpost]
  exact headerLookup_set_self _ _ _

theorem canon_auth : canonicalHeaderKey "Authorization" = "Authorization" := by decide

theorem canon_xapi : canonicalHeaderKey "X-Api-Key" = "X-Api-Key" := by decide

theorem canon_xgoog : canonicalHeaderKey "X-Goog-Api-Key" = "X-Goog-Api-Key" := by decide

theorem canon_xaccel : canonicalHeaderKey "X-Accel-Buffering" = "X-Accel-Buffering" := by
  decide

/-! ## Claims about BuildHeaders -/

/-- C8 counterexample: with pass-through enabled, a non-streaming request
whose inbound headers carry X-Accel-Buffering no still carries it in the
output, refuting the claim that the output contains X-Accel-Buffering no
exactly when streaming. -/
theorem buildHeaders_xAccel_cex :
    headerLookup (BuildHeaders [("X-Accel-Buffering", ["no"])] true [] false)
      "X-Accel-Buffering" = some ["no"] := by decide

/-- C8 (amended): BuildHeaders starts from the inbound headers exactly when
the pass-through flag is set and from an empty set otherwise (keys not
touched by the strip, the streaming set, or the custom headers are looked
up unchanged from that start); the canonical keys Authorization, X-Api-Key
and X-Goog-Api-Key are absent from the output unless a custom header sets
them again; when streaming, X-Accel-Buffering is no unless a custom header
overrides it (when not streaming the key may still be inherited from
pass-through inbound headers or set by a custom header); and custom headers
are applied last, so the last custom value for a key wins. -/
theorem buildHeaders_spec (source : HeaderMap) (withHeader : Bool)
    (custom : List (String × String)) (stream : Bool) :
    ((∀ e ∈ custom, canonicalHeaderKey e.1 ≠ "Authorization") →
      headerLookup (BuildHeaders source withHeader custom stream)
        "Authorization" = none) ∧
    ((∀ e ∈ custom, canonicalHeaderKey e.1 ≠ "X-Api-Key") →
      headerLookup (BuildHeaders source withHeader custom stream)
        "X-Api-Key" = none) ∧
    ((∀ e ∈ custom, canonicalHeaderKey e.1 ≠ "X-Goog-Api-Key") →
      headerLookup (BuildHeaders source withHeader custom stream)
        "X-Goog-Api-Key" = none) ∧
    (stream = true → (∀ e ∈ custom, canonicalHeaderKey e.1 ≠ "X-Accel-Buffering") →
      headerLookup (BuildHeaders source withHeader custom stream)
        "X-Accel-Buffering" = some ["no"]) ∧
    (∀ k, k ≠ "Authorization" → k ≠ "X-Api-Key" → k ≠ "X-Goog-Api-Key" →
      k ≠ "X-Accel-Buffering" → (∀ e ∈ custom, canonicalHeaderKey e.1 ≠ k) →
      headerLookup (BuildHeaders source withHeader custom stream) k =
        if withHeader then headerLookup source k else none) ∧
    (∀ pre k v post, custom = pre ++ (k, v) :: post →
      (∀ e ∈ post, canonicalHeaderKey e.1 ≠ canonicalHeaderKey k) →
      headerLookup (BuildHeaders source withHeader custom stream)
        (canonicalHeaderKey k) = some [v]) := by
  have hbase : ∀ k : String, k ≠ "X-Accel-Buffering" →
      headerLookup ((if stream then
          headerSet (if withHeader then source else []) "X-Accel-Buffering" "no"
        else (if withHeader then source else []))) k =
        headerLookup (if withHeader then source else []) k := by
    intro k hk
    cases stream with
    | false => rfl
    | true =>
      simp only [if_true]
      exact headerLookup_set_ne _ _ _ _ (by rw [canon_xaccel]; exact Ne.symm hk)
  refine ⟨?_, ?_, ?_, ?_, ?_, ?_⟩
  · intro hc
    unfold BuildHeaders
    rw [headerLookup_foldlSet_frame _ _ _ hc]
    rw [headerLookup_del_ne _ _ _ (by rw [canon_xgoog]; decide)]
    rw [headerLookup_del_ne _ _ _ (by rw [canon_xapi]; decide)]
    rw [show ("Authorization" : String) = canonicalHeaderKey "Authorization" from
      canon_auth.symm]
    exact headerLookup_del_self _ _
  · intro hc
    unfold BuildHeaders
    rw [headerLookup_foldlSet_frame _ _ _ hc]
    rw [headerLookup_del_ne _ _ _ (by rw [canon_xgoog]; decide)]
    rw [show ("X-Api-Key" : String) = canonicalHeaderKey "X-Api-Key" from
      canon_xapi.symm]
    exact headerLookup_del_self _ _
  · intro hc
    unfold BuildHeaders
    rw [headerLookup_foldlSet_frame _ _ _ hc]
    rw [show ("X-Goog-Api-Key" : String) = canonicalHeaderKey "X-Goog-Api-Key" from
      canon_xgoog.symm]
    exact headerLookup_del_self _ _
  · intro hstream hc
    subst hstream
    unfold BuildHeaders
    rw [headerLookup_foldlSet_frame _ _ _ hc]
    rw [headerLookup_del_ne _ _ _ (by rw [canon_xgoog]; decide)]
    rw [headerLookup_del_ne _ _ _ (by rw [canon_xapi]; decide)]
    rw [headerLookup_del_ne _ _ _ (by rw [canon_auth]; decide)]
    simp only [if_true]
    rw [show ("X-Accel-Buffering" : String) = canonicalHeaderKey "X-Accel-Buffering" from
      canon_xaccel.symm]
    exact headerLookup_set_self _ _ _
  · intro k h1 h2 h3 h4 hc
    have hsrc : headerLookup (if withHeader then source else []) k =
        (if withHeader then headerLookup source k else none) := by
      cases withHeader with
      | false => rfl
      | true => rfl
    unfold BuildHeaders
    rw [headerLookup_foldlSet_frame _ _ _ hc]
    rw [headerLookup_del_ne _ _ _ (by rw [canon_xgoog]; exact Ne.symm h3)]
    rw [headerLookup_del_ne _ _ _ (by rw [canon_xapi]; exact Ne.symm h2)]
    rw [headerLookup_del_ne _ _ _ (by rw [canon_auth]; exact Ne.symm h1)]
    rw [hbase k h4]
    exact hsrc
  · intro pre k v post hcu hpost
    subst hcu
    unfold BuildHeaders
    exact headerLookup_foldlSet_last _ _ _ _ _ hpost

theorem buildHeaders_spec_witness :
    headerLookup (BuildHeaders [("Authorization", ["secret"]), ("X-Test", ["a"])]
      true [("x-custom", "1")] true) "Authorization" = none ∧
    headerLookup (BuildHeaders [("Authorization", ["secret"]), ("X-Test", ["a"])]
      true [("x-custom", "1")] true) "X-Api-Key" = none ∧
    headerLookup (BuildHeaders [("Authorization", ["secret"]), ("X-Test", ["a"])]
      true [("x-custom", "1")] true) "X-Goog-Api-Key" = none ∧
    headerLookup (BuildHeaders [("Authorization", ["secret"]), ("X-Test", ["a"])]
      true [("x-custom", "1")] true) "X-Accel-Buffering" = some ["no"] ∧
    headerLookup (BuildHeaders [("Authorization", ["secret"]), ("X-Test", ["a"])]
      true [("x-custom", "1")] true) "X-Test" = some ["a"] ∧
    headerLookup (BuildHeaders [("Authorization", ["secret"]), ("X-Test", ["a"])]
      true [("x-custom", "1")] true) (canonicalHeaderKey "x-custom") = some ["1"] := by
  obtain ⟨ha, hxa, hxg, hacc, hframe, hwin⟩ :=
    buildHeaders_spec [("Authorization", ["secret"]), ("X-Test", ["a"])]
      true [("x-custom", "1")] true
  refine ⟨ha (by decide), hxa (by decide), hxg (by decide),
    hacc rfl (by decide), ?_, ?_⟩
  · rw [hframe "X-Test" (by decide) (by decide) (by decide) (by decide) (by decide)]
    decide
  · exact hwin [] "x-custom" "1" [] rfl (by decide)

/-! ## Claim about the OpenAI adapter -/

/-- C10: for every context, supplied header map (nil included), and raw
body, a request successfully built by OpenAI.BuildReq answers Header.Get
Authorization with Bearer followed by the adapter APIKey and Header.Get
Content-Type with application/json, whatever Authorization or Content-Type
values the supplied header map carried. -/
theorem canon_ctype : canonicalHeaderKey "Content-Type" = "Content-Type" := by decide

theorem headerGet_after_sets (h0 : HeaderMap) (ak : String) :
    headerGet (headerSet (headerSet h0 "Content-Type" "application/json")
      "Authorization" ak) "Authorization" = ak ∧
    headerGet (headerSet (headerSet h0 "Content-Type" "application/json")
      "Authorization" ak) "Content-Type" = "application/json" := by
  constructor
  · have hs := headerLookup_set_self
      (headerSet h0 "Content-Type" "application/json") "Authorization" ak
    rw [canon_auth] at hs
    unfold headerGet
    rw [canon_auth, hs]
  · have hs := headerLookup_set_self h0 "Content-Type" "application/json"
    rw [canon_ctype] at hs
    have hne := headerLookup_set_ne
      (headerSet h0 "Content-Type" "application/json") "Authorization" ak
      "Content-Type" (by rw [canon_auth]; decide)
    unfold headerGet
    rw [canon_ctype, hne, hs]

theorem openai_buildReq_auth (o : OpenAI) (header : Option HeaderMap)
    (sjsonResult : Option (List Nat)) (newRequestOk : Bool)
    (req : HttpRequest) (body : List Nat)
    (h : OpenAI.buildReq o header sjsonResult newRequestOk = some (req, body)) :
    headerGet req.header "Authorization" = "Bearer " ++ o.apiKey ∧
    headerGet req.header "Content-Type" = "application/json" := by
  cases sjsonResult with
  | none => simp [OpenAI.buildReq] at h
  | some b =>
    cases newRequestOk with
    | false => simp [OpenAI.buildReq] at h
    | true =>
      cases header with
      | none =>
        have he : OpenAI.buildReq o none (some b) true =
            some (⟨"POST", o.baseURL ++ "/chat/completions",
              headerSet (headerSet [] "Content-Type" "application/json")
                "Authorization" ("Bearer " ++ o.apiKey)⟩, b) := rfl
        rw [he] at h
        simp only [Option.some.injEq, Prod.mk.injEq] at h
        rw [← h.1]
        exact headerGet_after_sets [] ("Bearer " ++ o.apiKey)
      | some h0 =>
        have he : OpenAI.buildReq o (some h0) (some b) true =
            some (⟨"POST", o.baseURL ++ "/chat/completions",
              headerSet (headerSet h0 "Content-Type" "application/json")
                "Authorization" ("Bearer " ++ o.apiKey)⟩, b) := rfl
        rw [he] at h
        simp only [Option.some.injEq, Prod.mk.injEq] at h
        rw [← h.1]
        exact headerGet_after_sets h0 ("Bearer " ++ o.apiKey)

theorem openai_buildReq_auth_witness :
    headerGet (headerSet (headerSet [] "Content-Type" "application/json")
      "Authorization" "Bearer k") "Authorization" = "Bearer " ++ "k" ∧
    headerGet (headerSet (headerSet [] "Content-Type" "application/json")
      "Authorization" "Bearer k") "Content-Type" = "application/json" :=
  openai_buildReq_auth ⟨"b", "k", ""⟩ none (some []) true
    ⟨"POST", "b" ++ "/chat/completions",
      headerSet (headerSet [] "Content-Type" "application/json")
        "Authorization" ("Bearer " ++ "k")⟩ [] (by decide)

/-! ## Helper lemmas for the metadata assembler -/

theorem assocLookup_cons_ne {α : Type} (e : Nat × α) (t : List (Nat × α))
    (k : Nat) (h : e.1 ≠ k) : assocLookup (e :: t) k = assocLookup t k := by
  unfold assocLookup
  rw [List.find?_cons_of_neg _ (by simp [h])]

theorem assocLookup_cons_self {α : Type} (e : Nat × α) (t : List (Nat × α))
    (k : Nat) (h : e.1 = k) : assocLookup (e :: t) k = some e.2 := by
  unfold assocLookup
  rw [List.find?_cons_of_pos _ (by simp [h])]
  rfl

theorem assocLookup_filterNe {α : Type} (m : List (Nat × α)) (k k2 : Nat)
    (h : k2 ≠ k) :
    assocLookup (m.filter (fun e => !(e.1 == k))) k2 = assocLookup m k2 := by
  induction m with
  | nil => rfl
  | cons e t ih =>
    by_cases he : e.1 = k
    · have h1 : (e :: t).filter (fun x => !(x.1 == k)) =
          t.filter (fun x => !(x.1 == k)) := by simp [he]
      rw [h1, ih, assocLookup_cons_ne e t k2 (by rw [he]; exact Ne.symm h)]
    · have h1 : (e :: t).filter (fun x => !(x.1 == k)) =
          e :: t.filter (fun x => !(x.1 == k)) := by simp [he]
      rw [h1]
      by_cases hk : e.1 = k2
      · rw [assocLookup_cons_self _ _ _ hk, assocLookup_cons_self e t k2 hk]
      · rw [assocLookup_cons_ne _ _ _ hk, assocLookup_cons_ne e t k2 hk, ih]

theorem assocLookup_insert {α : Type} (m : List (Nat × α)) (k : Nat) (v : α)
    (k2 : Nat) :
    assocLookup (assocInsert m k v) k2 =
      if k2 = k then some v else assocLookup m k2 := by
  by_cases h : k2 = k
  · subst h
    rw [if_pos rfl]
    exact assocLookup_cons_self _ _ _ rfl
  · unfold assocInsert
    rw [if_neg h, assocLookup_cons_ne _ _ _ (fun hh => h hh.symm)]
    exact assocLookup_filterNe m k k2 h

theorem assocLookup_keyBy_frame {α : Type} (l : List α) (f : α → Nat)
    (acc : List (Nat × α)) (k : Nat) (h : ∀ z ∈ l, f z ≠ k) :
    assocLookup (l.foldl (fun m x => assocInsert m (f x) x) acc) k =
      assocLookup acc k := by
  induction l generalizing acc with
  | nil => rfl
  | cons x t ih =>
    simp only [List.foldl_cons]
    rw [ih _ (fun z hz => h z (List.mem_cons_of_mem _ hz))]
    rw [assocLookup_insert,
      if_neg (fun hh => (h x (List.mem_cons_self _ _)) hh.symm)]

theorem assocLookup_foldl_insert_nodup {α : Type} (l : List α) (f : α → Nat)
    (hnd : (l.map f).Nodup) (x : α) (hx : x ∈ l) (acc : List (Nat × α)) :
    assocLookup (l.foldl (fun m z => assocInsert m (f z) z) acc) (f x) = some x := by
  induction l generalizing acc with
  | nil => cases hx
  | cons y t ih =>
    simp only [List.map_cons, List.nodup_cons] at hnd
    rcases List.mem_cons.mp hx with hxy | hxt
    · subst hxy
      simp only [List.foldl_cons]
      rw [assocLookup_keyBy_frame t f _ (f x)
        (fun z hz hh => hnd.1 (hh ▸ List.mem_map_of_mem f hz))]
      rw [assocLookup_insert, if_pos rfl]
    · simp only [List.foldl_cons]
      exact ih hnd.2 hxt _

theorem assocLookup_keyBy_nodup {α : Type} (l : List α) (f : α → Nat)
    (hnd : (l.map f).Nodup) (x : α) (hx : x ∈ l) :
    assocLookup (keyBy l f) (f x) = some x := by
  unfold keyBy
  exact assocLookup_foldl_insert_nodup l f hnd x hx []

theorem nodup_map_inj {α : Type} {l : List α} {f : α → Nat}
    (hnd : (l.map f).Nodup) {a b : α} (ha : a ∈ l) (hb : b ∈ l)
    (hf : f a = f b) : a = b := by
  induction l with
  | nil => cases ha
  | cons y t ih =>
    simp only [List.map_cons, List.nodup_cons] at hnd
    rcases List.mem_cons.mp ha with hay | hat
    · rcases List.mem_cons.mp hb with hby | hbt
      · rw [hay, hby]
      · exfalso
        subst hay
        exact hnd.1 (hf ▸ List.mem_map_of_mem f hbt)
    · rcases List.mem_cons.mp hb with hby | hbt
      · exfalso
        subst hby
        exact hnd.1 (hf ▸ List.mem_map_of_mem f hat)
      · exact ih hnd.2 hat hbt

theorem weightItems_fold_some {mps : List ModelWithProvider}
    {pm : List (Nat × Provider)} {acc : List (Nat × Int)} {id : Nat} {w : Int}
    (h : assocLookup (mps.foldl (fun m mp =>
        if (assocLookup pm mp.providerID).isSome then assocInsert m mp.id mp.weight
        else m) acc) id = some w) :
    (∃ mp, mp ∈ mps ∧ mp.id = id ∧ (assocLookup pm mp.providerID).isSome = true) ∨
      assocLookup acc id = some w := by
  induction mps generalizing acc with
  | nil => exact Or.inr h
  | cons y t ih =>
    simp only [List.foldl_cons] at h
    rcases ih h with ⟨mp, hm, hid, hp⟩ | hacc
    · exact Or.inl ⟨mp, List.mem_cons_of_mem _ hm, hid, hp⟩
    · by_cases hy : (assocLookup pm y.providerID).isSome = true
      · rw [if_pos hy, assocLookup_insert] at hacc
        by_cases hk : id = y.id
        · exact Or.inl ⟨y, List.mem_cons_self _ _, hk.symm, hy⟩
        · rw [if_neg hk] at hacc
          exact Or.inr hacc
      · rw [if_neg hy] at hacc
        exact Or.inr hacc

theorem weightItems_fold_none {mps : List ModelWithProvider}
    {pm : List (Nat × Provider)} {id : Nat}
    (h : ∀ mp, mp ∈ mps → mp.id = id → assocLookup pm mp.providerID = none) :
    ∀ acc : List (Nat × Int), assocLookup acc id = none →
      assocLookup (mps.foldl (fun m mp =>
        if (assocLookup pm mp.providerID).isSome then assocInsert m mp.id mp.weight
        else m) acc) id = none := by
  induction mps with
  | nil =>
    intro acc hacc
    exact hacc
  | cons y t ih =>
    intro acc hacc
    simp only [List.foldl_cons]
    apply ih (fun mp hm => h mp (List.mem_cons_of_mem _ hm))
    by_cases hy : (assocLookup pm y.providerID).isSome = true
    · rw [if_pos hy, assocLookup_insert]
      by_cases hk : id = y.id
      · exfalso
        have hn := h y (List.mem_cons_self _ _) hk.symm
        rw [hn] at hy
        simp at hy
      · rw [if_neg hk]
        exact hacc
    · rw [if_neg hy]
      exact hacc

/-! ## Claim about the metadata assembler -/

/-- C9: assuming the binding ids are pairwise distinct (they are database
primary keys), the maps produced by the assembler satisfy: every candidate
id present in WeightItems is present in ModelWithProviderMap and the
ProviderID of its binding is present in ProviderMap; and any binding whose
provider was dropped by the style restriction (its provider id is absent
from ProviderMap) has no entry in WeightItems. -/
theorem assembleMeta_consistent (mps : List ModelWithProvider)
    (allProviders : List Provider) (style : String)
    (hnd : (mps.map (fun mp => mp.id)).Nodup) :
    (∀ id w,
      assocLookup (assembleMeta mps allProviders style).weightItems id = some w →
      (assocLookup (assembleMeta mps allProviders style).modelWithProviderMap id).map
        (fun mp =>
          (assocLookup (assembleMeta mps allProviders style).providerMap
            mp.providerID).isSome) = some true) ∧
    (∀ mp, mp ∈ mps →
      assocLookup (assembleMeta mps allProviders style).providerMap mp.providerID =
        none →
      assocLookup (assembleMeta mps allProviders style).weightItems mp.id = none) := by
  constructor
  · intro id w hw
    simp only [assembleMeta] at hw ⊢
    unfold buildWeightItems at hw
    rcases weightItems_fold_some hw with ⟨mp, hm, hid, hp⟩ | hacc
    · have hk : assocLookup (keyBy mps fun mp => mp.id) mp.id = some mp :=
        assocLookup_keyBy_nodup mps (fun mp => mp.id) hnd mp hm
      rw [hid] at hk
      rw [hk]
      simp only [Option.map_some']
      rw [hp]
    · simp [assocLookup] at hacc
  · intro mp hm hnone
    simp only [assembleMeta] at hnone ⊢
    unfold buildWeightItems
    apply weightItems_fold_none ?_ [] (by simp [assocLookup])
    intro mp2 hm2 hid2
    have heq : mp2 = mp := nodup_map_inj hnd hm2 hm hid2
    rw [heq]
    exact hnone

theorem assembleMeta_consistent_witness :
    (assocLookup (assembleMeta [⟨1, 10, 5⟩, ⟨2, 20, 7⟩] [⟨10, "openai"⟩]
        "openai").modelWithProviderMap 1).map
      (fun mp =>
        (assocLookup (assembleMeta [⟨1, 10, 5⟩, ⟨2, 20, 7⟩] [⟨10, "openai"⟩]
          "openai").providerMap mp.providerID).isSome) = some true ∧
    assocLookup (assembleMeta [⟨1, 10, 5⟩, ⟨2, 20, 7⟩] [⟨10, "openai"⟩]
      "openai").weightItems 2 = none := by
  obtain ⟨h1, h2⟩ := assembleMeta_consistent [⟨1, 10, 5⟩, ⟨2, 20, 7⟩]
    [⟨10, "openai"⟩] "openai" (by decide)
  exact ⟨h1 1 5 (by decide), h2 ⟨2, 20, 7⟩ (by decide) (by decide)⟩

end Llmio
